import Mathlib

/-!
Verification development for the Telegram XP / referral bot (`src/main.py`).

The Python source is a single-file bot over SQLite.  The shallow embedding
below models the pure state transitions of its core handlers:

* `calc_level`             — level formula (`main.py`, `calc_level`)
* `add_xp`                 — the XP ledger write (`main.py`, `add_xp`)
* `handle_message`         — message XP with keyword rules, cooldown and
                             daily cap (`main.py`, `handle_message`)
* `cmd_daily`              — the `/daily` claim (`main.py`, `cmd_daily`)
* `cmd_add_xp`             — manual admin grant (`main.py`, `cmd_add_xp`)
* `cmd_resetxp`            — the two-phase destructive reset
                             (`main.py`, `cmd_resetxp`, `backup_db_to_zip`)
* `handle_chat_member`     — referral attribution on join events
                             (`main.py`, `handle_chat_member`)

Database rows become Lean structures, `NULL`able columns become `Option`,
UTC timestamps become seconds (`Nat`), and calendar days become KST day
indices (`dayOfUtc`).  The Python `math.sqrt` runs on IEEE-754 doubles; the
model uses the exact integer square root (`natSqrt`, proved equal to
`Nat.sqrt`), which agrees with the double computation on all realistic XP
values (it can differ only once `xp / 100` approaches `2^52`).
-/

namespace XPBot

/-- Fuel-driven exact integer square root: largest `acc` reachable from the
start value with `(acc+1)^2 ≤ n`, taking at most `fuel` steps. -/
def isqrtLoop (n : Nat) : Nat → Nat → Nat
  | 0, acc => acc
  | fuel + 1, acc => if (acc + 1) * (acc + 1) ≤ n then isqrtLoop n fuel (acc + 1) else acc

/-- Exact integer square root, executable by kernel reduction (unlike
`Nat.sqrt`, which is defined by well-founded recursion). -/
def natSqrt (n : Nat) : Nat := isqrtLoop n n 0

theorem isqrtLoop_spec (n : Nat) :
    ∀ fuel acc, acc * acc ≤ n → n < (acc + fuel + 1) * (acc + fuel + 1) →
      isqrtLoop n fuel acc * isqrtLoop n fuel acc ≤ n ∧
        n < (isqrtLoop n fuel acc + 1) * (isqrtLoop n fuel acc + 1) := by
  intro fuel
  induction fuel with
  | zero =>
    intro acc h1 h2
    simpa [isqrtLoop] using And.intro h1 h2
  | succ f ih =>
    intro acc h1 h2
    by_cases h : (acc + 1) * (acc + 1) ≤ n
    · have := ih (acc + 1) h (by
        have : acc + 1 + f + 1 = acc + (f + 1) + 1 := by omega
        rw [this]; exact h2)
      simpa [isqrtLoop, h] using this
    · simp only [isqrtLoop, h, if_false]
      exact ⟨h1, Nat.lt_of_not_le h⟩

theorem natSqrt_eq_sqrt (n : Nat) : natSqrt n = Nat.sqrt n := by
  have hspec := isqrtLoop_spec n n 0 (by simp) (by nlinarith)
  exact Nat.eq_sqrt.2 ⟨hspec.1, hspec.2⟩

/-- Level formula, from `calc_level` in the source:
`return int(sqrt(xp / 100)) + 1 if xp > 0 else 1`, read in exact integer
arithmetic (see the file header for the floating-point caveat). -/
def calc_level (xp : Nat) : Nat :=
  if 0 < xp then natSqrt (xp / 100) + 1 else 1

/-- Member row of the `user_stats` table.  The name columns
(`username`, `first_name`, `last_name`) carry no behaviour relevant to the
claims and are omitted; dates are KST day indices, timestamps UTC seconds. -/
structure Member where
  xp : Nat
  level : Nat
  messagesCount : Nat
  lastDaily : Option Nat
  invitesCount : Nat
  lastXpAt : Option Nat
  dailyXp : Nat
  dailyXpDate : Option Nat
deriving DecidableEq

/-- Row of the `bot_settings` table (the fields the modelled handlers read).
The loader coalesces NULL to 0 and the setters clamp negatives to 0, so
`Nat` is the faithful carrier. -/
structure Settings where
  cooldownSeconds : Nat
  dailyXpCap : Nat
  inviteXp : Nat
deriving DecidableEq

/-- Row of the `xp_keywords` table; `mode` is the raw string column
(`'bonus'` or `'block'` in practice, anything else is ignored by the scan,
exactly as in the Python `elif` chain). -/
structure Keyword where
  word : String
  mode : String
  delta : Int
deriving DecidableEq

/-- Whitespace-stripped character sequence: the `no_space` variable of
`handle_message` (Python strips with `ch.isspace()`; `Char.isWhitespace`
agrees on the ASCII whitespace appearing in the modelled inputs). -/
def noSpace (t : List Char) : List Char :=
  t.filter (fun c => !c.isWhitespace)

/-- Python `str.isalnum` restricted to the scripts the bot ever sees:
ASCII alphanumerics, Hangul compatibility jamo (U+3131..U+318E, e.g. ㅋ/ㄱ,
which Python classifies as letters) and Hangul syllables. -/
def pyIsAlnum (c : Char) : Bool :=
  c.isAlphanum || (0x3131 ≤ c.toNat && c.toNat ≤ 0x318E) ||
    (0xAC00 ≤ c.toNat && c.toNat ≤ 0xD7A3)

/-- The explicit Hangul-syllable test `"가" <= ch <= "힣"` from
`_is_emoji_only`. -/
def isHangulSyllable (c : Char) : Bool :=
  0xAC00 ≤ c.toNat && c.toNat ≤ 0xD7A3

/-- Model of `_is_emoji_only`: after stripping whitespace, nonempty and
containing no alphanumeric and no Hangul-syllable character. -/
def is_emoji_only (t : List Char) : Bool :=
  let stripped := noSpace t
  if stripped.isEmpty then false
  else stripped.all (fun c => !pyIsAlnum c && !isHangulSyllable c)

/-- Character-list test that `needle` starts `hay`. -/
def prefixMatch : List Char → List Char → Bool
  | [], _ => true
  | _ :: _, [] => false
  | a :: as, b :: bs => a == b && prefixMatch as bs

/-- Character-list substring test, modelling Python `needle in hay`. -/
def containsSub (needle : List Char) : List Char → Bool
  | [] => needle.isEmpty
  | b :: bs => prefixMatch needle (b :: bs) || containsSub needle bs

/-- Python `str.lower()`, pointwise (ASCII case folding; the Korean
characters involved are fixed points on both sides). -/
def lowerChars (t : List Char) : List Char := t.map Char.toLower

/-- The `only_kek_or_gg` flag of `handle_message`: whitespace-stripped text
is nonempty and consists solely of `ㅋ` or solely of `ㄱ`. -/
def onlyKekOrGg (t : List Char) : Bool :=
  let ns := noSpace t
  (!ns.isEmpty && ns.all (fun c => c == 'ㅋ')) ||
    (!ns.isEmpty && ns.all (fun c => c == 'ㄱ'))

/-- One iteration of the keyword loop in `handle_message`: skip empty words
and the specially-handled `ㅋㅋ`/`ㄱㄱ`; a matching `block` word sets the
blocked flag, a matching `bonus` word accumulates its delta. -/
def kwStep (lowerText : List Char) (acc : Bool × Int) (kw : Keyword) : Bool × Int :=
  if kw.word = "" then acc
  else if kw.word = "ㅋㅋ" ∨ kw.word = "ㄱㄱ" then acc
  else if containsSub (lowerChars kw.word.toList) lowerText then
    if kw.mode = "block" then (true, acc.2)
    else if kw.mode = "bonus" then (acc.1, acc.2 + kw.delta)
    else acc
  else acc

/-- The keyword scan of `handle_message`, returning the blocked flag and the
bonus total. -/
def scanKeywords (kws : List Keyword) (lowerText : List Char) : Bool × Int :=
  kws.foldl (kwStep lowerText) (false, 0)

/-- Candidate XP of a message (as its character sequence) before the
cooldown and daily-cap filters: steps 0–4 of `handle_message` (length XP,
short-message/emoji-only/standalone filler zeroing, keyword block and
bonus, clamp at 0). -/
def candidateFromChars (kws : List Keyword) (chars : List Char) : Nat :=
  let ns := noSpace chars
  let base0 : Nat := 3 + ns.length / 20
  let base1 : Nat := if ns.length < 5 then 0 else base0
  let base2 : Nat := if is_emoji_only chars then 0 else base1
  let base3 : Nat := if onlyKekOrGg chars then 0 else base2
  let scanned := if onlyKekOrGg chars then (false, (0 : Int)) else scanKeywords kws (lowerChars chars)
  let d : Int := if scanned.1 then 0 else (base3 : Int) + scanned.2
  if d < 0 then 0 else d.toNat

/-- Candidate XP of a message text (the source works on the Python string;
the model reads its characters). -/
def messageCandidateDelta (kws : List Keyword) (text : String) : Nat :=
  candidateFromChars kws text.toList

/-- Ledger write `add_xp`: create the row with `messages_count = 1` if
absent, else add the (0-clamped) delta, recompute the level, bump the
message count; the `UPDATE` leaves all other columns untouched. -/
def add_xp (row : Option Member) (baseXp : Int) : Member :=
  match row with
  | none =>
    let xp := (max (0 : Int) baseXp).toNat
    { xp := xp, level := calc_level xp, messagesCount := 1,
      lastDaily := none, invitesCount := 0, lastXpAt := none,
      dailyXp := 0, dailyXpDate := none }
  | some m =>
    let xp := m.xp + (max (0 : Int) baseXp).toNat
    { m with xp := xp, level := calc_level xp, messagesCount := m.messagesCount + 1 }

/-- Message count of an optional row (0 when absent). -/
def mcOf : Option Member → Nat
  | none => 0
  | some m => m.messagesCount

/-- XP of an optional row (0 when absent). -/
def xpOf : Option Member → Nat
  | none => 0
  | some m => m.xp

/-- Invite count of an optional row (0 when absent). -/
def invitesOf : Option Member → Nat
  | none => 0
  | some m => m.invitesCount

/-- KST day index of a UTC timestamp in seconds: the source forms
`(utcnow() + 9h).date()`. -/
def dayOfUtc (nowUtc : Nat) : Nat := (nowUtc + 9 * 3600) / 86400

/-- The `daily_xp_current` the handler works with: the stored accumulator,
read as 0 when the row is absent or its `daily_xp_date` is not today. -/
def effDaily (today : Nat) : Option Member → Nat
  | none => 0
  | some m => if m.dailyXpDate = some today then m.dailyXp else 0

/-- Cooldown filter of `handle_message`: a positive delta is zeroed when a
previous XP award lies less than `cooldownSeconds` before `nowUtc`. -/
def cooldownPass (cooldown : Nat) (lastXpAt : Option Nat) (nowUtc delta : Nat) : Nat :=
  match lastXpAt with
  | none => delta
  | some t => if 0 < delta ∧ 0 < cooldown ∧ nowUtc - t < cooldown then 0 else delta

/-- Daily-cap filter of `handle_message`: with a positive cap, a positive
delta is zeroed once the accumulator reached the cap, otherwise clamped to
the remaining allowance. -/
def dailyCapPass (cap dailyCur delta : Nat) : Nat :=
  if 0 < delta ∧ 0 < cap then
    if cap ≤ dailyCur then 0 else min delta (cap - dailyCur)
  else delta

/-- Result of one `handle_message` call: the written member row, the
admitted XP delta, and whether the level-up notification fired. -/
structure MsgResult where
  row : Member
  admitted : Nat
  leveledUp : Bool
deriving DecidableEq

/-- Model of `handle_message` (lines 481–644): candidate XP, cooldown,
daily cap, ledger write via `add_xp`, and — only when XP was actually
admitted — the anti-spam field update (`last_xp_at`, `daily_xp`,
`daily_xp_date`). -/
def handle_message (kws : List Keyword) (st : Settings) (row : Option Member)
    (text : String) (nowUtc : Nat) : MsgResult :=
  let cand := messageCandidateDelta kws text
  let today := dayOfUtc nowUtc
  let lastAt : Option Nat := match row with | none => none | some m => m.lastXpAt
  let dailyCur : Nat := effDaily today row
  let d1 := cooldownPass st.cooldownSeconds lastAt nowUtc cand
  let d2 := dailyCapPass st.dailyXpCap dailyCur d1
  let m1 := add_xp row (d2 : Int)
  let m2 := if 0 < d2 then
      { m1 with lastXpAt := some nowUtc, dailyXp := dailyCur + d2, dailyXpDate := some today }
    else m1
  { row := m2, admitted := d2, leveledUp := 0 < d2 && calc_level (m1.xp - d2) < m1.level }

/-- One inbound group message: its text and UTC arrival second. -/
structure MsgEvent where
  text : String
  nowUtc : Nat

/-- Sequential processing of a list of messages by one member, returning the
final row and the total admitted XP. -/
def runMessages (kws : List Keyword) (st : Settings) :
    Option Member → List MsgEvent → Option Member × Nat
  | row, [] => (row, 0)
  | row, e :: es =>
    let r := handle_message kws st row e.text e.nowUtc
    let rest := runMessages kws st (some r.row) es
    (rest.1, r.admitted + rest.2)

/-- Fixed `/daily` bonus (`bonus = 50` in `cmd_daily`). -/
def dailyBonusXp : Nat := 50

/-- Result of one `/daily` invocation: the stored row and whether the bonus
was granted. -/
structure DailyResult where
  row : Member
  granted : Bool
deriving DecidableEq

/-- Model of `cmd_daily` (lines 897–983).  An absent row is inserted with
`messages_count = 0` and the bonus as its XP; a row whose `last_daily`
already names today is left untouched; otherwise the `UPDATE` writes only
`xp`, `level` and `last_daily`.  `cmd_daily` never reads `bot_settings`:
cooldown and daily cap play no part.  Legacy ISO-datetime values of
`last_daily` are normalised by the source to their KST day, which the
`Option Nat` day tag models directly. -/
def cmd_daily (row : Option Member) (today : Nat) : DailyResult :=
  match row with
  | none =>
    { row := { xp := dailyBonusXp, level := calc_level dailyBonusXp, messagesCount := 0,
               lastDaily := some today, invitesCount := 0, lastXpAt := none,
               dailyXp := 0, dailyXpDate := none },
      granted := true }
  | some m =>
    if m.lastDaily = some today then { row := m, granted := false }
    else
      let xp := m.xp + dailyBonusXp
      { row := { m with xp := xp, level := calc_level xp, lastDaily := some today },
        granted := true }

/-- Core of `cmd_add_xp` (lines 1903–1976): reject non-positive amounts,
otherwise credit through `add_xp` (a trusted path with no anti-abuse
filtering). -/
def cmd_add_xp (row : Option Member) (delta : Int) : Option Member :=
  if delta ≤ 0 then row else some (add_xp row delta)

/-- The administrative reset applied to each member row of the main chat
(the `UPDATE` in `cmd_resetxp`): zero every mutable field, keep the row. -/
def resetMember (_m : Member) : Member :=
  { xp := 0, level := 1, messagesCount := 0, lastDaily := none,
    invitesCount := 0, lastXpAt := none, dailyXp := 0, dailyXpDate := none }

/-- The literal confirmation phrase required by `cmd_resetxp`. -/
def confirmationText : String := "동의합니다."

/-- Externally visible effects of one `cmd_resetxp` invocation: whether a
backup artifact was produced (and its delivery attempted) and whether the
destructive reset ran. -/
structure ResetOutcome where
  backup : Bool
  mutated : Bool
deriving DecidableEq

/-- Model of `cmd_resetxp` (lines 1482–1604).  Non-owner calls, an unset
main chat, missing arguments and unknown modes all return without effect;
`total` followed by the exact confirmation phrase runs the reset (producing
no backup); `total` alone produces the backup zip via `backup_db_to_zip`
and attempts its delivery, mutating nothing. -/
def cmd_resetxp (isOwnerUser mainChatSet : Bool) (args : List String) : ResetOutcome :=
  if !isOwnerUser then { backup := false, mutated := false }
  else if !mainChatSet then { backup := false, mutated := false }
  else
    match args with
    | [] => { backup := false, mutated := false }
    | mode :: rest =>
      if mode ≠ "total" then { backup := false, mutated := false }
      else if rest ≠ [] ∧ String.intercalate " " rest = confirmationText then
        { backup := false, mutated := true }
      else { backup := true, mutated := false }

/-- Scan of a sequence of reset invocations, carrying the number of backups
produced so far: true when some invocation mutates while no backup was
produced before it. -/
def unbackedMutationAux (backups : Nat) : List ResetOutcome → Bool
  | [] => false
  | o :: os =>
    if o.mutated ∧ backups = 0 then true
    else unbackedMutationAux (backups + (if o.backup then 1 else 0)) os

/-- Whether a sequence of `cmd_resetxp` invocations reaches a state where
the mutation has run but no backup was produced beforehand. -/
def unbackedMutation (isOwnerUser mainChatSet : Bool) (invocations : List (List String)) : Bool :=
  unbackedMutationAux 0 (invocations.map (cmd_resetxp isOwnerUser mainChatSet))

/-- Referral state scoped to the main chat: the `invite_links` table
(token to inviter and joined count), the `user_stats` table (user to
member row), and the `invited_users` attribution table (user to inviter). -/
structure JoinState where
  links : String → Option (Nat × Nat)
  stats : Nat → Option Member
  invitedUsers : Nat → Option Nat

/-- One `chat_member` update: the joining user, the old and new membership
status strings, and the invite link the platform reports (if any). -/
structure JoinEvent where
  newUser : Nat
  oldStatus : String
  newStatus : String
  usedLink : Option String

/-- The join test of `handle_chat_member`: a transition from left or kicked
to member or restricted. -/
def joinQualifies (ev : JoinEvent) : Bool :=
  (ev.oldStatus == "left" || ev.oldStatus == "kicked") &&
    (ev.newStatus == "member" || ev.newStatus == "restricted")

/-- The inviter row inserted by `handle_chat_member` when absent:
`(chat, inviter, xp 0, level 1, messages 0, last_daily NULL, invites 1)`,
remaining columns at their table defaults. -/
def inviterInsertRow : Member :=
  { xp := 0, level := 1, messagesCount := 0, lastDaily := none,
    invitesCount := 1, lastXpAt := none, dailyXp := 0, dailyXpDate := none }

/-- Model of `handle_chat_member` (lines 1113–1193).  On a qualifying join
with a recognised invite link: bump the link's joined count, bump (or
insert) the inviter's `invites_count`, then — when `invite_xp` is positive
— credit the inviter through `add_xp` on the freshly committed row (the
external `get_chat_member` lookup guarding that credit is modelled as
succeeding).  The `invited_users` table is neither consulted nor
written. -/
def handle_chat_member (st : Settings) (s : JoinState) (ev : JoinEvent) : JoinState :=
  if joinQualifies ev then
    match ev.usedLink with
    | none => s
    | some tok =>
      match s.links tok with
      | none => s
      | some (inviter, jc) =>
        let links' : String → Option (Nat × Nat) :=
          fun t => if t = tok then some (inviter, jc + 1) else s.links t
        let bumped : Member :=
          match s.stats inviter with
          | none => inviterInsertRow
          | some m => { m with invitesCount := m.invitesCount + 1 }
        let stats1 : Nat → Option Member :=
          fun u => if u = inviter then some bumped else s.stats u
        let stats2 : Nat → Option Member :=
          if 0 < st.inviteXp then
            fun u => if u = inviter then some (add_xp (stats1 inviter) (st.inviteXp : Int))
              else stats1 u
          else stats1
        { links := links', stats := stats2, invitedUsers := s.invitedUsers }
  else s

/-- Level consistency of a stored row: the invariant claimed by the spec. -/
def levelInv (m : Member) : Prop := m.level = calc_level m.xp

/-- Level consistency of an optional row. -/
def levelInvO (row : Option Member) : Prop := ∀ m, row = some m → levelInv m

/-- A 47-character message with no whitespace and no keyword content. -/
def text47 : String := String.mk (List.replicate 47 'a')

/-- An 80-character message (length XP `3 + 80 / 20 = 7`). -/
def text80 : String := String.mk (List.replicate 80 'a')

/-- Settings with both anti-abuse controls disabled. -/
def zeroSettings : Settings := { cooldownSeconds := 0, dailyXpCap := 0, inviteXp := 0 }

/-- Settings with only the cooldown enabled (7 seconds, the default). -/
def cdSettings : Settings := { cooldownSeconds := 7, dailyXpCap := 0, inviteXp := 0 }

/-- Settings with only the daily cap enabled, at 10 XP. -/
def capSettings : Settings := { cooldownSeconds := 0, dailyXpCap := 10, inviteXp := 0 }

/-- A member who has already accrued 8 daily XP today (KST day 0). -/
def member8 : Member :=
  { xp := 0, level := 1, messagesCount := 0, lastDaily := none,
    invitesCount := 0, lastXpAt := none, dailyXp := 8, dailyXpDate := some 0 }

/-- Referral fixture: one invite link with token `L`, owned by inviter 7,
never used; no member rows; no attribution rows. -/
def joinState0 : JoinState :=
  { links := fun t => if t = "L" then some (7, 0) else none,
    stats := fun _ => none,
    invitedUsers := fun _ => none }

/-- Referral fixture: user 42 joins through link `L` after having left. -/
def joinEvent0 : JoinEvent :=
  { newUser := 42, oldStatus := "left", newStatus := "member", usedLink := some "L" }

/-- Referral fixture settings: 100 XP per invite. -/
def inviteSettings : Settings := { cooldownSeconds := 0, dailyXpCap := 0, inviteXp := 100 }

theorem maxZeroToNat_natCast (n : Nat) : (max (0 : Int) (n : Int)).toNat = n := by
  simp

theorem add_xp_messagesCount (row : Option Member) (b : Int) :
    (add_xp row b).messagesCount = mcOf row + 1 := by
  cases row <;> simp [add_xp, mcOf]

theorem add_xp_level (row : Option Member) (b : Int) :
    (add_xp row b).level = calc_level (add_xp row b).xp := by
  cases row <;> simp [add_xp]

theorem add_xp_xp (row : Option Member) (b : Int) :
    (add_xp row b).xp = xpOf row + (max (0 : Int) b).toNat := by
  cases row <;> simp [add_xp, xpOf]

theorem add_xp_some_invitesCount (m : Member) (b : Int) :
    (add_xp (some m) b).invitesCount = m.invitesCount := rfl

theorem add_xp_some_dailyXp (m : Member) (b : Int) :
    (add_xp (some m) b).dailyXp = m.dailyXp := rfl

theorem add_xp_some_dailyXpDate (m : Member) (b : Int) :
    (add_xp (some m) b).dailyXpDate = m.dailyXpDate := rfl

theorem add_xp_none_dailyXpDate (b : Int) : (add_xp none b).dailyXpDate = none := rfl

theorem cooldownPass_zero_delta (cd : Nat) (l : Option Nat) (now : Nat) :
    cooldownPass cd l now 0 = 0 := by
  cases l <;> simp [cooldownPass]

theorem cooldownPass_zero_cd (l : Option Nat) (now d : Nat) :
    cooldownPass 0 l now d = d := by
  cases l <;> simp [cooldownPass]

theorem cooldownPass_recent (cd t now d : Nat) (hcd : 0 < cd) (hgap : now - t < cd) :
    cooldownPass cd (some t) now d = 0 := by
  by_cases hd : 0 < d
  · simp [cooldownPass, hd, hcd, hgap]
  · have hd0 : d = 0 := by omega
    subst hd0
    simp [cooldownPass]

theorem dailyCapPass_zero_delta (cap cur : Nat) : dailyCapPass cap cur 0 = 0 := by
  simp [dailyCapPass]

theorem dailyCapPass_zero_cap (cur d : Nat) : dailyCapPass 0 cur d = d := by
  simp [dailyCapPass]

theorem dailyCapPass_add_le (cap cur d : Nat) (hcap : 0 < cap)
    (hpos : 0 < dailyCapPass cap cur d) : cur + dailyCapPass cap cur d ≤ cap := by
  unfold dailyCapPass at hpos ⊢
  split_ifs at hpos ⊢ with h1 h2
  · omega
  · have := Nat.min_le_right d (cap - cur)
    omega
  · exact absurd ⟨hpos, hcap⟩ h1

theorem handle_message_admitted (kws : List Keyword) (st : Settings) (row : Option Member)
    (text : String) (nowUtc : Nat) :
    (handle_message kws st row text nowUtc).admitted =
      dailyCapPass st.dailyXpCap (effDaily (dayOfUtc nowUtc) row)
        (cooldownPass st.cooldownSeconds
          (match row with | none => none | some m => m.lastXpAt)
          nowUtc (messageCandidateDelta kws text)) := rfl

theorem handle_message_messagesCount (kws : List Keyword) (st : Settings)
    (row : Option Member) (text : String) (nowUtc : Nat) :
    (handle_message kws st row text nowUtc).row.messagesCount = mcOf row + 1 := by
  unfold handle_message
  dsimp only
  split <;> simp [add_xp_messagesCount]

theorem handle_message_levelInv (kws : List Keyword) (st : Settings)
    (row : Option Member) (text : String) (nowUtc : Nat) :
    levelInv (handle_message kws st row text nowUtc).row := by
  unfold handle_message levelInv
  dsimp only
  split <;> simp [add_xp_level]

theorem handle_message_lastXpAt_of_pos (kws : List Keyword) (st : Settings)
    (row : Option Member) (text : String) (nowUtc : Nat)
    (h : 0 < (handle_message kws st row text nowUtc).admitted) :
    (handle_message kws st row text nowUtc).row.lastXpAt = some nowUtc := by
  unfold handle_message at h ⊢
  dsimp only at h ⊢
  rw [if_pos h]

theorem handle_message_row_eq (kws : List Keyword) (st : Settings) (row : Option Member)
    (text : String) (nowUtc : Nat) :
    (handle_message kws st row text nowUtc).row =
      if 0 < (handle_message kws st row text nowUtc).admitted then
        { add_xp row ((handle_message kws st row text nowUtc).admitted : Int) with
          lastXpAt := some nowUtc,
          dailyXp := effDaily (dayOfUtc nowUtc) row +
            (handle_message kws st row text nowUtc).admitted,
          dailyXpDate := some (dayOfUtc nowUtc) }
      else add_xp row ((handle_message kws st row text nowUtc).admitted : Int) := rfl

theorem handle_message_daily_step (kws : List Keyword) (st : Settings) (row : Option Member)
    (text : String) (nowUtc : Nat) (hcap : 0 < st.dailyXpCap) :
    ((handle_message kws st row text nowUtc).admitted = 0 ∧
        effDaily (dayOfUtc nowUtc) (some (handle_message kws st row text nowUtc).row) =
          effDaily (dayOfUtc nowUtc) row) ∨
      (0 < (handle_message kws st row text nowUtc).admitted ∧
        effDaily (dayOfUtc nowUtc) (some (handle_message kws st row text nowUtc).row) =
          effDaily (dayOfUtc nowUtc) row + (handle_message kws st row text nowUtc).admitted ∧
        effDaily (dayOfUtc nowUtc) (some (handle_message kws st row text nowUtc).row) ≤
          st.dailyXpCap) := by
  rcases Nat.eq_zero_or_pos (handle_message kws st row text nowUtc).admitted with h0 | hpos
  · left
    refine ⟨h0, ?_⟩
    rw [handle_message_row_eq, h0]
    rw [if_neg (by omega)]
    cases row with
    | none => simp [add_xp, effDaily]
    | some m => simp [effDaily, add_xp_some_dailyXp, add_xp_some_dailyXpDate]
  · right
    refine ⟨hpos, ?_, ?_⟩
    · rw [handle_message_row_eq, if_pos hpos]
      simp [effDaily]
    · rw [handle_message_row_eq, if_pos hpos]
      simp only [effDaily, if_pos rfl]
      have hadm := handle_message_admitted kws st row text nowUtc
      rw [hadm]
      exact dailyCapPass_add_le st.dailyXpCap (effDaily (dayOfUtc nowUtc) row) _ hcap
        (hadm ▸ hpos)

theorem runMessages_daily (kws : List Keyword) (st : Settings) (d : Nat)
    (hcap : 0 < st.dailyXpCap) :
    ∀ (evs : List MsgEvent) (row : Option Member), (∀ e ∈ evs, dayOfUtc e.nowUtc = d) →
      effDaily d (runMessages kws st row evs).1 =
          effDaily d row + (runMessages kws st row evs).2 ∧
        (0 < (runMessages kws st row evs).2 →
          effDaily d (runMessages kws st row evs).1 ≤ st.dailyXpCap) := by
  intro evs
  induction evs with
  | nil =>
    intro row _
    simp [runMessages]
  | cons e es ih =>
    intro row hd
    have hde : dayOfUtc e.nowUtc = d := hd e (List.mem_cons_self e es)
    have hstep := handle_message_daily_step kws st row e.text e.nowUtc hcap
    rw [hde] at hstep
    have ihs := ih (some (handle_message kws st row e.text e.nowUtc).row)
      (fun e' he' => hd e' (List.mem_cons_of_mem e he'))
    simp only [runMessages]
    rcases hstep with ⟨ha, heq⟩ | ⟨_, heq, hle⟩
    · refine ⟨?_, ?_⟩
      · rw [ihs.1, heq, ha]
        omega
      · intro hpos
        rw [ha] at hpos
        simp only [Nat.zero_add] at hpos
        exact ihs.2 hpos
    · refine ⟨?_, ?_⟩
      · rw [ihs.1, heq]
        omega
      · intro _
        rcases Nat.eq_zero_or_pos (runMessages kws st
            (some (handle_message kws st row e.text e.nowUtc).row) es).2 with hz | hp
        · rw [ihs.1, hz, heq]
          omega
        · exact ihs.2 hp

theorem kwStep_fst_mono (lt : List Char) (acc : Bool × Int) (kw : Keyword)
    (h : acc.1 = true) : (kwStep lt acc kw).1 = true := by
  unfold kwStep
  split_ifs <;> simp [h]

theorem foldl_kwStep_fst_mono (lt : List Char) :
    ∀ (kws : List Keyword) (acc : Bool × Int), acc.1 = true →
      (List.foldl (kwStep lt) acc kws).1 = true := by
  intro kws
  induction kws with
  | nil => intro acc h; simpa using h
  | cons k ks ih => intro acc h; exact ih (kwStep lt acc k) (kwStep_fst_mono lt acc k h)

theorem scanKeywords_fst_of_block (lt : List Char) (kw : Keyword)
    (hmode : kw.mode = "block") (hword : kw.word ≠ "")
    (hk1 : kw.word ≠ "ㅋㅋ") (hk2 : kw.word ≠ "ㄱㄱ")
    (hmatch : containsSub (lowerChars kw.word.toList) lt = true) :
    ∀ (kws : List Keyword) (acc : Bool × Int), kw ∈ kws →
      (List.foldl (kwStep lt) acc kws).1 = true := by
  intro kws
  induction kws with
  | nil => intro acc h; cases h
  | cons k ks ih =>
    intro acc hmem
    rcases List.mem_cons.mp hmem with rfl | hmem'
    · simp only [List.foldl_cons]
      apply foldl_kwStep_fst_mono
      unfold kwStep
      rw [if_neg hword, if_neg (by rintro (h | h); exact hk1 h; exact hk2 h),
        if_pos hmatch, if_pos hmode]
    · exact ih (kwStep lt acc k) hmem'

theorem candidateFromChars_blocked (kws : List Keyword) (chars : List Char) (kw : Keyword)
    (hmem : kw ∈ kws) (hmode : kw.mode = "block") (hword : kw.word ≠ "")
    (hk1 : kw.word ≠ "ㅋㅋ") (hk2 : kw.word ≠ "ㄱㄱ")
    (hmatch : containsSub (lowerChars kw.word.toList) (lowerChars chars) = true) :
    candidateFromChars kws chars = 0 := by
  unfold candidateFromChars
  by_cases hkg : onlyKekOrGg chars = true
  · simp [hkg]
  · have hb : (scanKeywords kws (lowerChars chars)).1 = true :=
      scanKeywords_fst_of_block (lowerChars chars) kw hmode hword hk1 hk2 hmatch
        kws (false, 0) hmem
    simp [hkg, hb]

theorem candidateFromChars_plain (kws : List Keyword) (chars : List Char)
    (hscan : scanKeywords kws (lowerChars chars) = (false, 0))
    (hemoji : is_emoji_only chars = false)
    (hkek : onlyKekOrGg chars = false) :
    candidateFromChars kws chars =
      if (noSpace chars).length < 5 then 0
      else 3 + (noSpace chars).length / 20 := by
  unfold candidateFromChars
  simp only [hscan, hemoji, hkek]
  split
  · simp_all
  · split
    · simp
    · rw [if_neg (by omega)]
      omega

/-- C3, counterexample to the claim as stated: the manual admin grant
(`/add_xp`) on an absent member goes through `add_xp`, which creates the
row with `messagesCount = 1`, not `0` as claimed for the manual-grant
path. -/
theorem C3_claim_counterexample :
    cmd_add_xp none 5 = some (add_xp none 5) ∧
      (add_xp none 5).messagesCount = 1 ∧ ¬(add_xp none 5).messagesCount = 0 := by
  decide

/-- C3, amended: when the credit operation creates an absent Member row,
the row is created with `messagesCount = 1` on the message-triggered path
and on the manual-grant path (both run through `add_xp`), and with
`messagesCount = 0` only on the daily-claim path. -/
theorem C3_amended_creation_counts (kws : List Keyword) (st : Settings) (text : String)
    (now today : Nat) (delta : Int) (hpos : 0 < delta) :
    (handle_message kws st none text now).row.messagesCount = 1 ∧
      (cmd_daily none today).row.messagesCount = 0 ∧
      cmd_add_xp none delta = some (add_xp none delta) ∧
      (add_xp none delta).messagesCount = 1 := by
  refine ⟨?_, rfl, ?_, rfl⟩
  · have h := handle_message_messagesCount kws st none text now
    simpa [mcOf] using h
  · unfold cmd_add_xp
    rw [if_neg (by omega)]

/-- C3, witness: the amended statement at concrete inputs. -/
theorem C3_amended_witness : (cmd_daily none 0).row.messagesCount = 0 ∧
    (add_xp none 5).messagesCount = 1 :=
  ⟨(C3_amended_creation_counts [] zeroSettings "" 0 0 5 (by decide)).2.1,
   (C3_amended_creation_counts [] zeroSettings "" 0 0 5 (by decide)).2.2.2⟩

/-- C10: a successful `/daily` claim on an existing row grants the fixed
bonus (the handler never reads `bot_settings`, so `cooldownSeconds` and
`dailyXpCap` cannot affect it) and mutates only `xp`, `level` and
`last_daily`, leaving `last_xp_at`, `daily_xp`, `daily_xp_date` and
`messages_count` unchanged. -/
theorem C10_daily_frame (m : Member) (today : Nat) (h : m.lastDaily ≠ some today) :
    (cmd_daily (some m) today).granted = true ∧
      (cmd_daily (some m) today).row.xp = m.xp + dailyBonusXp ∧
      (cmd_daily (some m) today).row.level = calc_level (m.xp + dailyBonusXp) ∧
      (cmd_daily (some m) today).row.lastDaily = some today ∧
      (cmd_daily (some m) today).row.lastXpAt = m.lastXpAt ∧
      (cmd_daily (some m) today).row.dailyXp = m.dailyXp ∧
      (cmd_daily (some m) today).row.dailyXpDate = m.dailyXpDate ∧
      (cmd_daily (some m) today).row.messagesCount = m.messagesCount := by
  simp [cmd_daily, h]

/-- C10, witness: the frame condition at a concrete member who has not
claimed today. -/
theorem C10_daily_frame_witness :
    (cmd_daily (some member8) 0).granted = true ∧
      (cmd_daily (some member8) 0).row.dailyXp = member8.dailyXp :=
  ⟨(C10_daily_frame member8 0 (by decide)).1,
   (C10_daily_frame member8 0 (by decide)).2.2.2.2.2.1⟩

/-- C2, counterexample to the claim as stated: a single invocation that
already carries the confirmation phrase runs the destructive reset without
any backup having been produced beforehand, so the state "mutation ran but
no backup preceded it" is reachable. -/
theorem C2_claim_counterexample :
    unbackedMutation true true [["total", "동의합니다."]] = true ∧
      (cmd_resetxp true true ["total", "동의합니다."]).mutated = true ∧
      (cmd_resetxp true true ["total", "동의합니다."]).backup = false := by
  decide

/-- C2, amended: the reset mutates only on an invocation whose first
argument is `total` and whose remaining arguments joined by spaces equal
the exact confirmation phrase, and the phrase-less invocation
`/resetxp total` performs no mutation and produces the backup artifact —
but nothing ties the mutating invocation to a prior backup. -/
theorem C2_amended_two_phase (o mc : Bool) (args : List String)
    (h : (cmd_resetxp o mc args).mutated = true) :
    args.head? = some "total" ∧
      String.intercalate " " args.tail = confirmationText ∧
      cmd_resetxp true true ["total"] = { backup := true, mutated := false } := by
  cases o with
  | false => simp [cmd_resetxp] at h
  | true =>
    cases mc with
    | false => simp [cmd_resetxp] at h
    | true =>
      match args with
      | [] => simp [cmd_resetxp] at h
      | mode :: rest =>
        by_cases hm : mode = "total"
        · subst hm
          by_cases hc : rest ≠ [] ∧ String.intercalate " " rest = confirmationText
          · exact ⟨rfl, hc.2, by decide⟩
          · simp only [cmd_resetxp, Bool.not_true, ite_false, if_neg hc] at h
            rw [if_neg (by simp)] at h
            simp at h
        · simp only [cmd_resetxp, Bool.not_true] at h
          rw [if_neg (by simp), if_neg (by simp), if_pos hm] at h
          simp at h

/-- C2, witness: the phase-1 invocation at concrete arguments produces the
backup and no mutation. -/
theorem C2_amended_witness :
    cmd_resetxp true true ["total"] = { backup := true, mutated := false } :=
  (C2_amended_two_phase true true ["total", "동의합니다."] (by decide)).2.2

theorem handle_message_admitted_some (kws : List Keyword) (st : Settings) (m : Member)
    (text : String) (nowUtc : Nat) :
    (handle_message kws st (some m) text nowUtc).admitted =
      dailyCapPass st.dailyXpCap (effDaily (dayOfUtc nowUtc) (some m))
        (cooldownPass st.cooldownSeconds m.lastXpAt nowUtc
          (messageCandidateDelta kws text)) := rfl

/-- C8, counterexample to the claim as stated: the symbol-only message
`??????` has 6 non-whitespace characters and matches no keyword, so the
claimed formula yields `3 + 6 / 20 = 3`, yet the emoji/symbol-only
classifier forces the admitted delta to 0. -/
theorem C8_claim_counterexample :
    (handle_message [] zeroSettings none "??????" 0).admitted = 0 ∧
      (noSpace "??????".toList).length = 6 ∧
      ¬(handle_message [] zeroSettings none "??????" 0).admitted =
        3 + (noSpace "??????".toList).length / 20 := by
  decide

/-- C8, amended: for a message with no keyword matches, cooldown and cap
disabled, that is not classified emoji/symbol-only and is not standalone
`ㅋ`/`ㄱ` filler, the admitted delta is `3 + len / 20` of the
whitespace-stripped text, forced to 0 below length 5; the concrete
47-character example admits 5 XP, leaves `xp = 5`, `level = 1` and fires
no level-up. -/
theorem C8_amended_length_xp (kws : List Keyword) (st : Settings) (row : Option Member)
    (text : String) (now : Nat)
    (hscan : scanKeywords kws (lowerChars text.toList) = (false, 0))
    (hcd : st.cooldownSeconds = 0) (hcap : st.dailyXpCap = 0)
    (hemoji : is_emoji_only text.toList = false)
    (hkek : onlyKekOrGg text.toList = false) :
    (handle_message kws st row text now).admitted =
        (if (noSpace text.toList).length < 5 then 0
         else 3 + (noSpace text.toList).length / 20) ∧
      (handle_message [] zeroSettings none text47 0).admitted = 5 ∧
      (handle_message [] zeroSettings none text47 0).row.xp = 5 ∧
      (handle_message [] zeroSettings none text47 0).row.level = 1 ∧
      (handle_message [] zeroSettings none text47 0).leveledUp = false := by
  refine ⟨?_, by decide, by decide, by decide, by decide⟩
  rw [handle_message_admitted, hcd, hcap]
  rw [cooldownPass_zero_cd, dailyCapPass_zero_cap]
  exact candidateFromChars_plain kws text.toList hscan hemoji hkek

/-- C8, witness: the amended formula at the 47-character message. -/
theorem C8_amended_witness :
    (handle_message [] zeroSettings none text47 0).admitted =
      (if (noSpace text47.toList).length < 5 then 0
       else 3 + (noSpace text47.toList).length / 20) :=
  (C8_amended_length_xp [] zeroSettings none text47 0 (by decide) rfl rfl
    (by decide) (by decide)).1

/-- C9, counterexample to the claim as stated: with the default keyword
table, `ㅋㅋ` is a block keyword, and the message `abcdefㅋㅋ` matches it as
a substring, yet the scan skips `ㅋㅋ`/`ㄱㄱ` and the message admits 3 XP. -/
theorem C9_claim_counterexample :
    containsSub (lowerChars "ㅋㅋ".toList) (lowerChars "abcdefㅋㅋ".toList) = true ∧
      (⟨"ㅋㅋ", "block", 0⟩ : Keyword) ∈ [(⟨"ㅋㅋ", "block", 0⟩ : Keyword)] ∧
      (handle_message [⟨"ㅋㅋ", "block", 0⟩] zeroSettings none "abcdefㅋㅋ" 0).admitted = 3 := by
  decide

/-- C9, amended: a message case-insensitively matching a nonempty block
keyword other than the specially-skipped `ㅋㅋ`/`ㄱㄱ` admits 0 XP,
regardless of any bonus keywords it also matches. -/
theorem C9_amended_block_beats_bonus (kws : List Keyword) (st : Settings)
    (row : Option Member) (text : String) (now : Nat) (kw : Keyword)
    (hmem : kw ∈ kws) (hmode : kw.mode = "block") (hword : kw.word ≠ "")
    (hk1 : kw.word ≠ "ㅋㅋ") (hk2 : kw.word ≠ "ㄱㄱ")
    (hmatch : containsSub (lowerChars kw.word.toList) (lowerChars text.toList) = true) :
    (handle_message kws st row text now).admitted = 0 := by
  rw [handle_message_admitted]
  have hc : messageCandidateDelta kws text = 0 :=
    candidateFromChars_blocked kws text.toList kw hmem hmode hword hk1 hk2 hmatch
  rw [hc, cooldownPass_zero_delta, dailyCapPass_zero_delta]

/-- C9, witness: a block keyword `bad` zeroes a message that also carries a
bonus keyword `good`. -/
theorem C9_amended_witness :
    (handle_message [⟨"good", "bonus", 5⟩, ⟨"bad", "block", 0⟩] zeroSettings none
      "xx good bad yy" 0).admitted = 0 :=
  C9_amended_block_beats_bonus [⟨"good", "bonus", 5⟩, ⟨"bad", "block", 0⟩] zeroSettings
    none "xx good bad yy" 0 ⟨"bad", "block", 0⟩ (by decide) rfl (by decide) (by decide)
    (by decide) (by decide)

/-- C5, counterexample to the claim as stated: two calls 3 seconds apart
under a 7-second cooldown where the first call admits 0 (message below the
5-character threshold) and the second admits a positive delta — the single
positive admission falls on the second call, not the first. -/
theorem C5_claim_counterexample :
    (1003 : Nat) - 1000 < cdSettings.cooldownSeconds ∧
      (handle_message [] cdSettings none "abc" 1000).admitted = 0 ∧
      0 < (handle_message [] cdSettings
        (some (handle_message [] cdSettings none "abc" 1000).row) "abcdefgh" 1003).admitted := by
  decide

/-- C5, amended: two `handle_message` calls less than `cooldownSeconds`
apart admit a positive delta on at most one of them — if the first call
admits a positive delta, the second admits 0 (the positive admission can
however fall on the second call when the first earned nothing) — and both
calls increment `messagesCount`. -/
theorem C5_amended_cooldown (kws : List Keyword) (st : Settings) (row : Option Member)
    (x1 x2 : String) (t1 t2 : Nat) (hcd : 0 < st.cooldownSeconds)
    (hgap : t2 - t1 < st.cooldownSeconds) :
    ¬(0 < (handle_message kws st row x1 t1).admitted ∧
        0 < (handle_message kws st (some (handle_message kws st row x1 t1).row) x2 t2).admitted) ∧
      (handle_message kws st row x1 t1).row.messagesCount = mcOf row + 1 ∧
      (handle_message kws st (some (handle_message kws st row x1 t1).row) x2 t2).row.messagesCount
        = mcOf row + 2 := by
  refine ⟨?_, handle_message_messagesCount kws st row x1 t1, ?_⟩
  · rintro ⟨h1, h2⟩
    have hl := handle_message_lastXpAt_of_pos kws st row x1 t1 h1
    rw [handle_message_admitted_some, hl,
      cooldownPass_recent st.cooldownSeconds t1 t2 _ hcd hgap,
      dailyCapPass_zero_delta] at h2
    exact absurd h2 (lt_irrefl 0)
  · rw [handle_message_messagesCount kws st (some (handle_message kws st row x1 t1).row) x2 t2]
    simp only [mcOf]
    rw [handle_message_messagesCount kws st row x1 t1]
    simp [mcOf]

/-- C5, witness: the amended statement at two concrete calls 3 seconds
apart under the default 7-second cooldown. -/
theorem C5_amended_witness :
    ¬(0 < (handle_message [] cdSettings none text47 1000).admitted ∧
        0 < (handle_message [] cdSettings
          (some (handle_message [] cdSettings none text47 1000).row) text47 1003).admitted) ∧
      (handle_message [] cdSettings none text47 1000).row.messagesCount = mcOf none + 1 ∧
      (handle_message [] cdSettings
        (some (handle_message [] cdSettings none text47 1000).row) text47 1003).row.messagesCount
        = mcOf none + 2 :=
  C5_amended_cooldown [] cdSettings none text47 text47 1000 1003 (by decide) (by decide)

/-- C4: with a positive daily cap and all messages falling on one KST day,
the total admitted message XP of a run never exceeds the cap; and the
spec's clamp example holds — cap 10, 8 already accrued today, a candidate
delta of 7 is admitted as 2. -/
theorem C4_daily_cap (kws : List Keyword) (st : Settings) (row : Option Member)
    (evs : List MsgEvent) (d : Nat) (hcap : 0 < st.dailyXpCap)
    (hday : ∀ e ∈ evs, dayOfUtc e.nowUtc = d) :
    (runMessages kws st row evs).2 ≤ st.dailyXpCap ∧
      (handle_message [] capSettings (some member8) text80 0).admitted = 2 := by
  refine ⟨?_, by decide⟩
  have h := runMessages_daily kws st d hcap evs row hday
  rcases Nat.eq_zero_or_pos (runMessages kws st row evs).2 with h0 | hp
  · omega
  · have h2 := h.2 hp
    have h1 := h.1
    omega

/-- C4, witness: the cap bound on a concrete one-message run and the
concrete clamp example. -/
theorem C4_daily_cap_witness :
    (runMessages [] capSettings none [{ text := text80, nowUtc := 0 }]).2 ≤
        capSettings.dailyXpCap ∧
      (handle_message [] capSettings (some member8) text80 0).admitted = 2 :=
  C4_daily_cap [] capSettings none [{ text := text80, nowUtc := 0 }] 0 (by decide)
    (by
      intro e he
      have he' : e = { text := text80, nowUtc := 0 } := by simpa using he
      rw [he']
      decide)

/-- C6: every xp-mutating operation stores `level = calc_level xp` — the
ledger write, the message handler, a granted daily claim, the
administrative reset, and the invite credit written for the inviter on a
qualifying join. -/
theorem C6_level_invariant (row : Option Member) (b : Int) (kws : List Keyword)
    (st : Settings) (text : String) (now today : Nat) (m : Member)
    (s : JoinState) (ev : JoinEvent) (tok : String) (inviter jc : Nat)
    (hq : joinQualifies ev = true) (hl : ev.usedLink = some tok)
    (hf : s.links tok = some (inviter, jc)) (hx : 0 < st.inviteXp) :
    levelInv (add_xp row b) ∧
      levelInv (handle_message kws st row text now).row ∧
      ((cmd_daily row today).granted = true → levelInv (cmd_daily row today).row) ∧
      levelInv (resetMember m) ∧
      levelInvO ((handle_chat_member st s ev).stats inviter) := by
  refine ⟨add_xp_level row b, handle_message_levelInv kws st row text now, ?_, rfl, ?_⟩
  · intro hg
    cases row with
    | none => simp [cmd_daily, levelInv]
    | some mm =>
      by_cases hld : mm.lastDaily = some today
      · simp [cmd_daily, hld] at hg
      · simp [cmd_daily, hld, levelInv]
  · intro m' hm'
    unfold handle_chat_member at hm'
    rw [if_pos hq, hl] at hm'
    try dsimp only at hm'
    rw [hf] at hm'
    try dsimp only at hm'
    rw [if_pos hx] at hm'
    try dsimp only at hm'
    simp only [eq_self_iff_true, if_true] at hm'
    rw [← Option.some.inj hm']
    exact add_xp_level _ _

/-- C6, witness: the invariant at a concrete ledger write and at the
inviter row written by a concrete qualifying join. -/
theorem C6_level_invariant_witness :
    levelInv (add_xp none 5) ∧
      levelInvO ((handle_chat_member inviteSettings joinState0 joinEvent0).stats 7) :=
  ⟨(C6_level_invariant none 5 [] inviteSettings "" 0 0 member8 joinState0 joinEvent0
      "L" 7 0 (by decide) rfl (by decide) (by decide)).1,
   (C6_level_invariant none 5 [] inviteSettings "" 0 0 member8 joinState0 joinEvent0
      "L" 7 0 (by decide) rfl (by decide) (by decide)).2.2.2.2⟩

/-- C1, counterexample to the claim as stated: processing the very same
qualifying join event (same community, same joining user, same token)
twice credits the inviter twice — after two events the inviter holds
`invites_count = 2` and 200 invite XP, versus 1 and 100 after one event —
because `handle_chat_member` never consults or writes `invited_users`. -/
theorem C1_claim_counterexample :
    ((handle_chat_member inviteSettings
        (handle_chat_member inviteSettings joinState0 joinEvent0) joinEvent0).stats 7).map
        Member.invitesCount = some 2 ∧
      ((handle_chat_member inviteSettings
        (handle_chat_member inviteSettings joinState0 joinEvent0) joinEvent0).stats 7).map
        Member.xp = some 200 ∧
      ((handle_chat_member inviteSettings joinState0 joinEvent0).stats 7).map
        Member.xp = some 100 ∧
      ((handle_chat_member inviteSettings joinState0 joinEvent0).stats 7).map
        Member.invitesCount = some 1 := by
  decide

/-- C1, amended: on every qualifying join event with a recognised token the
inviter is credited again — `invites_count` rises by one and, with a
positive `invite_xp`, the inviter's XP rises by it — and the
`invited_users` attribution table is never touched, so no attribution row
is ever created and repeat joins re-credit without bound. -/
theorem C1_amended_rejoin_recredits (st : Settings) (s : JoinState) (ev : JoinEvent)
    (tok : String) (inviter jc : Nat) (hq : joinQualifies ev = true)
    (hl : ev.usedLink = some tok) (hf : s.links tok = some (inviter, jc)) :
    invitesOf ((handle_chat_member st s ev).stats inviter) =
        invitesOf (s.stats inviter) + 1 ∧
      (0 < st.inviteXp →
        xpOf ((handle_chat_member st s ev).stats inviter) =
          xpOf (s.stats inviter) + st.inviteXp) ∧
      (handle_chat_member st s ev).invitedUsers = s.invitedUsers := by
  unfold handle_chat_member
  rw [if_pos hq, hl]
  dsimp only
  rw [hf]
  dsimp only
  by_cases hx : 0 < st.inviteXp
  · rw [if_pos hx]
    refine ⟨?_, fun _ => ?_, rfl⟩
    · cases hstats : s.stats inviter with
      | none =>
        simp [hstats, invitesOf, add_xp, inviterInsertRow]
      | some mm =>
        simp [hstats, invitesOf, add_xp]
    · cases hstats : s.stats inviter with
      | none =>
        simp [hstats, xpOf, add_xp, inviterInsertRow, maxZeroToNat_natCast]
      | some mm =>
        simp [hstats, xpOf, add_xp, maxZeroToNat_natCast]
  · rw [if_neg hx]
    refine ⟨?_, fun hx' => absurd hx' hx, rfl⟩
    cases hstats : s.stats inviter with
    | none => simp [hstats, invitesOf, inviterInsertRow]
    | some mm => simp [hstats, invitesOf]

/-- C1, witness: the re-credit at a concrete qualifying join. -/
theorem C1_amended_witness :
    invitesOf ((handle_chat_member inviteSettings joinState0 joinEvent0).stats 7) =
      invitesOf (joinState0.stats 7) + 1 :=
  (C1_amended_rejoin_recredits inviteSettings joinState0 joinEvent0 "L" 7 0 (by decide)
    rfl (by decide)).1

end XPBot
